import Mathlib

/-!
Verification of the tiny-dfr touch bar daemon (src/main.rs).

The daemon renders a row of virtual function keys on an elongated touch
strip and translates multi-touch contacts into key press/release events.
This development embeds the pure geometry (`button_hit`, the layout
formulas shared with `FunctionLayer::draw`), the display-mode acceptance
heuristic of `try_open_card`, and the per-slot touch state machine of the
main event loop.  Floating point (`f64`) coordinates are modelled as exact
rationals; the `u16` display dimensions as naturals with truncating
division; the `f64` to `u32` cast as floor with saturation.
-/

/-- Display constants, src/main.rs lines 33-34 (`DFR_WIDTH`, `DFR_HEIGHT`),
used as `f64` throughout the geometry. -/
def DFR_WIDTH : ℚ := 2008

/-- src/main.rs line 34. -/
def DFR_HEIGHT : ℚ := 64

/-- `button_width` as computed identically in `FunctionLayer::draw`
(line 85) and `button_hit` (line 254): `DFR_WIDTH / (num + 1)`. -/
def buttonWidth (num : ℕ) : ℚ := DFR_WIDTH / ((num : ℚ) + 1)

/-- `spacing_width` from lines 86 / 255:
`(DFR_WIDTH - num * button_width) / (num + 1)`. -/
def spacingWidth (num : ℕ) : ℚ :=
  (DFR_WIDTH - (num : ℚ) * buttonWidth num) / ((num : ℚ) + 1)

/-- `left_edge` from lines 92 / 256:
`idx * (button_width + spacing_width) + spacing_width`. -/
def leftEdge (num idx : ℕ) : ℚ :=
  (idx : ℚ) * (buttonWidth num + spacingWidth num) + spacingWidth num

/-- `button_hit` from src/main.rs lines 253-261.  Returns `false` when `x`
falls outside the closed interval `[left_edge, left_edge + button_width]`,
otherwise tests `y > 0.09 * DFR_HEIGHT && y < 0.91 * DFR_HEIGHT`
(both comparisons strict in the source). -/
def button_hit (num idx : ℕ) (x y : ℚ) : Bool :=
  if x < leftEdge num idx ∨ x > leftEdge num idx + buttonWidth num then false
  else decide (y > 9 / 100 * DFR_HEIGHT) && decide (y < 91 / 100 * DFR_HEIGHT)

/-- An axis-aligned rectangle as passed to `Context::rectangle`. -/
structure DrawnRect where
  x : ℚ
  y : ℚ
  w : ℚ
  h : ℚ
deriving DecidableEq

/-- The filled rectangle of button `idx` in `FunctionLayer::draw`,
src/main.rs line 95:
`c.rectangle(left_edge, 0.09 * DFR_HEIGHT, button_width, 0.82 * DFR_HEIGHT)`. -/
def drawnButtonRect (num idx : ℕ) : DrawnRect :=
  ⟨leftEdge num idx, 9 / 100 * DFR_HEIGHT, buttonWidth num, 82 / 100 * DFR_HEIGHT⟩

/-- The display-mode acceptance test of `try_open_card`,
src/main.rs lines 148-151.  `mode.size()` yields `(disp_width, disp_height)`
as `u16`; the guard is `if disp_height / disp_width < 30` (truncating
integer division) and on failure returns the error
"This does not look like a touchbar". -/
def touchbarModeCheck (disp_width disp_height : ℕ) : Except String Unit :=
  if disp_height / disp_width < 30 then
    Except.error "This does not look like a touchbar"
  else Except.ok ()

/-- Key codes of `layer.buttons[i].action as u16` for the twelve buttons
built in `main` (src/main.rs lines 278-291): `Key::F1 ..= Key::F12` are
Linux key codes 59..68, 87, 88. -/
def layerActions : List ℕ := [59, 60, 61, 62, 63, 64, 65, 66, 67, 68, 87, 88]

/-- One `input_event` written by `emit` (src/main.rs lines 263-273); the
timestamp is always zeroed, so only type, code and value are modelled. -/
structure EmittedEvent where
  type_ : ℕ
  code : ℕ
  value : ℤ
deriving DecidableEq

/-- `EventKind::Key as u16` = EV_KEY = 1. -/
def EV_KEY : ℕ := 1

/-- `EventKind::Synchronize as u16` = EV_SYN = 0. -/
def EV_SYN : ℕ := 0

/-- `SynchronizeKind::Report as u16` = SYN_REPORT = 0. -/
def SYN_REPORT : ℕ := 0

/-- The key event `emit(uinput, EventKind::Key, layer.buttons[k].action, v)`. -/
def keyEv (k : ℕ) (v : ℤ) : EmittedEvent :=
  ⟨EV_KEY, layerActions.getD k 0, v⟩

/-- The sync event `emit(uinput, EventKind::Synchronize, Report, 0)`. -/
def synEv : EmittedEvent := ⟨EV_SYN, SYN_REPORT, 0⟩

/-- Mutable state of the main loop (src/main.rs lines 293-294, 322-323):
`touches : HashMap<slot, u32>` (slot to button index), `button_state :
Vec<bool>` (initially twelve `false`s), `needs_redraw : bool`. -/
structure AppState where
  touches : ℕ → Option ℕ
  button_state : List Bool
  needs_redraw : Bool

/-- State at entry of the event loop: empty touch map, twelve inactive
buttons, redraw pending. -/
def initState : AppState :=
  ⟨fun _ => none, List.replicate 12 false, true⟩

/-- A touch event delivered for the recognized digitizer device, carrying
the seat slot and (for Down/Motion) the transformed coordinates
`x_transformed(DFR_WIDTH)`, `y_transformed(DFR_HEIGHT)`. -/
inductive TouchEv where
  | down (slot : ℕ) (x y : ℚ)
  | motion (slot : ℕ) (x y : ℚ)
  | up (slot : ℕ)
deriving DecidableEq

/-- The seat slot an event carries. -/
def eventSlot : TouchEv → ℕ
  | .down s _ _ => s
  | .motion s _ _ => s
  | .up s => s

/-- `(x / (DFR_WIDTH as f64 / 12.0)) as u32` from src/main.rs line 350:
floor, truncated toward zero and saturated to `[0, 2^32 - 1]` by the Rust
float-to-integer cast (`Int.toNat` maps negative floors to 0). -/
def candidate (x : ℚ) : ℕ :=
  min (⌊x / (DFR_WIDTH / 12)⌋.toNat) (2 ^ 32 - 1)

/-- One iteration of the touch-event match in the main loop,
src/main.rs lines 346-388, returning the successor state and the list of
events written to uinput.

* Down (347-357): compute the candidate index, test `button_hit`; on hit
  insert `slot ↦ btn` (unconditional `HashMap::insert`), set
  `button_state[btn] = true`, request redraw, emit key-down and sync.
* Motion (359-374): ignore untracked slots; otherwise recompute the hit
  for the *bound* button and, when it differs from `button_state[btn]`,
  store it, request redraw, and emit a key event whose value is the new
  hit boolean, plus sync.
* Up (375-386): ignore untracked slots; otherwise, when
  `button_state[btn]` is set, clear it, request redraw, emit key-up and
  sync.  The source never removes the slot from `touches`.

Out-of-range list accesses (which panic in Rust) are modelled totally by
`List.set` (no-op) and `List.getD` (default `false`). -/
def stepEvent (s : AppState) (e : TouchEv) : AppState × List EmittedEvent :=
  match e with
  | .down slot x y =>
      let btn := candidate x
      if button_hit 12 btn x y then
        (⟨fun t => if t = slot then some btn else s.touches t,
          s.button_state.set btn true, true⟩,
         [keyEv btn 1, synEv])
      else (s, [])
  | .motion slot x y =>
      match s.touches slot with
      | none => (s, [])
      | some btn =>
        let hit := button_hit 12 btn x y
        if s.button_state.getD btn false ≠ hit then
          (⟨s.touches, s.button_state.set btn hit, true⟩,
           [keyEv btn (if hit then 1 else 0), synEv])
        else (s, [])
  | .up slot =>
      match s.touches slot with
      | none => (s, [])
      | some btn =>
        if s.button_state.getD btn false then
          (⟨s.touches, s.button_state.set btn false, true⟩,
           [keyEv btn 0, synEv])
        else (s, [])

/-- Process a batch of events in delivery order, concatenating emissions. -/
def processAll (l : List TouchEv) (s : AppState) : AppState × List EmittedEvent :=
  match l with
  | [] => (s, [])
  | e :: rest =>
      let p := stepEvent s e
      let q := processAll rest p.1
      (q.1, p.2 ++ q.2)

/-- A slot tracking button 0 while `button_state[0]` is set (the state
reached by a Down in the middle of button 0). -/
def trackedActiveState : AppState :=
  ⟨fun t => if t = 0 then some 0 else none, true :: List.replicate 11 false, false⟩

/-- A slot tracking button 0 while `button_state[0]` is clear (the state
reached after a Motion dragged off the button). -/
def trackedInactiveState : AppState :=
  ⟨fun t => if t = 0 then some 0 else none, List.replicate 12 false, false⟩

/-- Precondition on a trace of events for one slot whose initial Down
missed: every event belongs to `slot`, and every Down in it lands strictly
left of the strip end and outside all twelve button hit regions. -/
def missOnly (slot : ℕ) : TouchEv → Prop
  | .down s2 x y =>
      s2 = slot ∧ x < DFR_WIDTH ∧ ∀ i, i < 12 → button_hit 12 i x y = false
  | .motion s2 _ _ => s2 = slot
  | .up s2 => s2 = slot

/-- The invariant holding between a Down inside button `k` on `slot` and
the matching Up, while events of other slots acting on other buttons are
interleaved: the slot stays bound to `k`, button `k` stays active, and no
other slot is bound to `k`. -/
def PressInv (slot k : ℕ) (s : AppState) : Prop :=
  s.touches slot = some k ∧ s.button_state.getD k false = true ∧
  ∀ t, t ≠ slot → s.touches t ≠ some k

/-- An interleaved event is harmless for the press `(slot, k)`: it belongs
to a different slot and, if it is a Down, its bucket index is not `k`. -/
def otherSlotOtherButton (slot k : ℕ) (e : TouchEv) : Prop :=
  eventSlot e ≠ slot ∧ ∀ s2 x2 y2, e = TouchEv.down s2 x2 y2 → candidate x2 ≠ k

/-! ### Helper lemmas -/

lemma getD_set_self (l : List Bool) (i : ℕ) (b : Bool) (h : i < l.length) :
    (l.set i b).getD i false = b := by
  simp [List.getD_eq_getElem?_getD, List.getElem?_set_self', List.getElem?_eq_getElem h]

lemma getD_set_other (l : List Bool) (i j : ℕ) (b : Bool) (h : i ≠ j) :
    (l.set i b).getD j false = l.getD j false := by
  simp [List.getD_eq_getElem?_getD, List.getElem?_set_ne h]

lemma buttonWidth_pos (num : ℕ) : 0 < buttonWidth num := by
  rw [buttonWidth, DFR_WIDTH]
  positivity

lemma spacingWidth_eq (num : ℕ) : spacingWidth num = DFR_WIDTH / ((num : ℚ) + 1) ^ 2 := by
  have h : ((num : ℚ) + 1) ≠ 0 := by positivity
  rw [spacingWidth, buttonWidth]
  field_simp
  ring

lemma spacingWidth_pos (num : ℕ) : 0 < spacingWidth num := by
  rw [spacingWidth_eq, DFR_WIDTH]
  positivity

lemma leftEdge_pos (num idx : ℕ) : 0 < leftEdge num idx := by
  have h1 := buttonWidth_pos num
  have h2 := spacingWidth_pos num
  have h3 : 0 ≤ (idx : ℚ) * (buttonWidth num + spacingWidth num) := by positivity
  rw [leftEdge]
  linarith

/-- Characterization of `button_hit`: the x test is against the closed
interval, the y test against the open band. -/
lemma button_hit_iff (num idx : ℕ) (x y : ℚ) :
    button_hit num idx x y = true ↔
      leftEdge num idx ≤ x ∧ x ≤ leftEdge num idx + buttonWidth num ∧
      9 / 100 * DFR_HEIGHT < y ∧ y < 91 / 100 * DFR_HEIGHT := by
  rw [button_hit]
  split_ifs with h
  · simp only [Bool.false_eq_true, false_iff]
    rintro ⟨h1, h2, -, -⟩
    rcases h with h | h
    · linarith
    · linarith
  · push_neg at h
    simp only [Bool.and_eq_true, decide_eq_true_eq, gt_iff_lt]
    exact ⟨fun ⟨hy1, hy2⟩ => ⟨h.1, h.2, hy1, hy2⟩, fun ⟨_, _, hy1, hy2⟩ => ⟨hy1, hy2⟩⟩

/-- Consecutive buttons leave a positive gap: the right edge of button `i`
lies strictly left of the left edge of button `j` whenever `i < j`. -/
lemma leftEdge_gap (num i j : ℕ) (hij : i < j) :
    leftEdge num i + buttonWidth num < leftEdge num j := by
  have hsp := spacingWidth_pos num
  have hbw := buttonWidth_pos num
  have hone : (1 : ℚ) ≤ (j : ℚ) - (i : ℚ) := by
    have : (i : ℚ) + 1 ≤ (j : ℚ) := by exact_mod_cast Nat.succ_le_of_lt hij
    linarith
  have key : 1 * (buttonWidth num + spacingWidth num) ≤
      ((j : ℚ) - (i : ℚ)) * (buttonWidth num + spacingWidth num) :=
    mul_le_mul_of_nonneg_right hone (by linarith)
  rw [leftEdge, leftEdge]
  nlinarith [key]

/-- Closed form of the right edge of button `idx`. -/
lemma rightEdge_eq (num idx : ℕ) :
    leftEdge num idx + buttonWidth num =
      DFR_WIDTH * ((idx : ℚ) + 1) * ((num : ℚ) + 2) / ((num : ℚ) + 1) ^ 2 := by
  have hn : ((num : ℚ) + 1) ≠ 0 := by positivity
  rw [leftEdge, spacingWidth_eq, buttonWidth]
  field_simp
  ring

/-- The right edge of any real button (`idx < num`) lies strictly inside
the strip. -/
lemma rightEdge_lt_width (num idx : ℕ) (h : idx < num) :
    leftEdge num idx + buttonWidth num < DFR_WIDTH := by
  have hidx : (idx : ℚ) + 1 ≤ (num : ℚ) := by exact_mod_cast Nat.succ_le_of_lt h
  have hq : (0 : ℚ) ≤ (num : ℚ) := Nat.cast_nonneg num
  rw [rightEdge_eq, DFR_WIDTH, div_lt_iff₀ (by positivity)]
  nlinarith [hidx, hq]

/-- On the closed x-range of button `k` (for the twelve-button layout)
the cheap bucket index of line 350 evaluates exactly to `k`. -/
lemma candidate_eq (k : ℕ) (x : ℚ) (hk : k < 12)
    (h1 : leftEdge 12 k ≤ x) (h2 : x ≤ leftEdge 12 k + buttonWidth 12) :
    candidate x = k := by
  have hk11 : (k : ℚ) ≤ 11 := by exact_mod_cast Nat.lt_succ_iff.mp hk
  have hbw : buttonWidth 12 = 2008 / 13 := by norm_num [buttonWidth, DFR_WIDTH]
  have hsp : spacingWidth 12 = 2008 / 169 := by
    norm_num [spacingWidth, buttonWidth, DFR_WIDTH]
  have hle : leftEdge 12 k = (k : ℚ) * (28112 / 169) + 2008 / 169 := by
    rw [leftEdge, hbw, hsp]; ring
  rw [hle] at h1
  rw [hle, hbw] at h2
  have hW : DFR_WIDTH / 12 = 502 / 3 := by norm_num [DFR_WIDTH]
  have hfloor : ⌊x / (DFR_WIDTH / 12)⌋ = (k : ℤ) := by
    rw [hW, Int.floor_eq_iff]
    constructor
    · rw [le_div_iff₀ (by norm_num : (0 : ℚ) < 502 / 3)]
      push_cast
      linarith
    · rw [div_lt_iff₀ (by norm_num : (0 : ℚ) < 502 / 3)]
      have key : ((k : ℚ) + 1) * (28112 / 169) < ((k : ℚ) + 1) * (502 / 3) :=
        mul_lt_mul_of_pos_left (by norm_num) (by positivity)
      push_cast
      linarith
  rw [candidate, hfloor, Int.toNat_natCast]
  omega

/-- Strictly left of the right end of the strip, the bucket index stays
below 12. -/
lemma candidate_lt (x : ℚ) (hx : x < DFR_WIDTH) : candidate x < 12 := by
  have hW : DFR_WIDTH / 12 = 502 / 3 := by norm_num [DFR_WIDTH]
  have hfloor : ⌊x / (DFR_WIDTH / 12)⌋ < (12 : ℤ) := by
    rw [hW, Int.floor_lt]
    rw [div_lt_iff₀ (by norm_num : (0 : ℚ) < 502 / 3)]
    rw [DFR_WIDTH] at hx
    push_cast
    linarith
  have htn : (⌊x / (DFR_WIDTH / 12)⌋).toNat < 12 := by
    rw [Int.toNat_lt' (by norm_num : (12 : ℕ) ≠ 0)]
    exact_mod_cast hfloor
  exact lt_of_le_of_lt (Nat.min_le_left _ _) htn

/-! ### State machine helper lemmas -/

lemma stepEvent_down_hit (s : AppState) (slot : ℕ) (x y : ℚ)
    (h : button_hit 12 (candidate x) x y = true) :
    stepEvent s (.down slot x y) =
      (⟨fun t => if t = slot then some (candidate x) else s.touches t,
        s.button_state.set (candidate x) true, true⟩,
       [keyEv (candidate x) 1, synEv]) := by
  simp [stepEvent, h]

lemma stepEvent_down_miss (s : AppState) (slot : ℕ) (x y : ℚ)
    (h : button_hit 12 (candidate x) x y = false) :
    stepEvent s (.down slot x y) = (s, []) := by
  simp [stepEvent, h]

lemma stepEvent_motion_untracked (s : AppState) (slot : ℕ) (x y : ℚ)
    (h : s.touches slot = none) :
    stepEvent s (.motion slot x y) = (s, []) := by
  simp [stepEvent, h]

lemma stepEvent_up_untracked (s : AppState) (slot : ℕ)
    (h : s.touches slot = none) :
    stepEvent s (.up slot) = (s, []) := by
  simp [stepEvent, h]

lemma stepEvent_motion_tracked (s : AppState) (slot btn : ℕ) (x y : ℚ)
    (h : s.touches slot = some btn) :
    stepEvent s (.motion slot x y) =
      (if s.button_state.getD btn false ≠ button_hit 12 btn x y then
        (⟨s.touches, s.button_state.set btn (button_hit 12 btn x y), true⟩,
         [keyEv btn (if button_hit 12 btn x y then 1 else 0), synEv])
      else (s, [])) := by
  simp [stepEvent, h]

lemma stepEvent_up_tracked (s : AppState) (slot btn : ℕ)
    (h : s.touches slot = some btn) :
    stepEvent s (.up slot) =
      (if s.button_state.getD btn false then
        (⟨s.touches, s.button_state.set btn false, true⟩, [keyEv btn 0, synEv])
      else (s, [])) := by
  simp [stepEvent, h]

/-- Events carried by a different slot never touch this slot's map entry. -/
lemma stepEvent_touches_frame (s : AppState) (e : TouchEv) (t : ℕ)
    (h : eventSlot e ≠ t) :
    (stepEvent s e).1.touches t = s.touches t := by
  cases e with
  | down slot x y =>
      rw [eventSlot] at h
      by_cases hh : button_hit 12 (candidate x) x y
      · rw [stepEvent_down_hit s slot x y hh]
        exact if_neg (fun hc => h hc.symm)
      · rw [stepEvent_down_miss s slot x y (by simpa using hh)]
  | motion slot x y =>
      cases htr : s.touches slot with
      | none => rw [stepEvent_motion_untracked s slot x y htr]
      | some btn =>
          rw [stepEvent_motion_tracked s slot btn x y htr]
          split_ifs <;> rfl
  | up slot =>
      cases htr : s.touches slot with
      | none => rw [stepEvent_up_untracked s slot htr]
      | some btn =>
          rw [stepEvent_up_tracked s slot btn htr]
          split_ifs <;> rfl

/-! ### Claims about the hit geometry -/

/-- C5 (counterexample): the claim asserts `hit` is true iff `y` lies in
the *closed* interval `[0.09 * thickness, 0.91 * thickness]`.  At the
concrete point `x = 50`, `y = 144/25 = 0.09 * 64` both claimed membership
conditions hold, yet `button_hit` returns `false`: the source compares
with strict `>`, so the band is open. -/
theorem c5_counterexample :
    leftEdge 12 0 ≤ 50 ∧ (50 : ℚ) ≤ leftEdge 12 0 + buttonWidth 12 ∧
    9 / 100 * DFR_HEIGHT ≤ 144 / 25 ∧ (144 : ℚ) / 25 ≤ 91 / 100 * DFR_HEIGHT ∧
    button_hit 12 0 50 (144 / 25) = false := by
  norm_num [button_hit, leftEdge, buttonWidth, spacingWidth, DFR_WIDTH, DFR_HEIGHT]

/-- C5 (amended): for every `N ≥ 1`, `0 ≤ i < N` and rational `x, y`,
`hit(N,i,x,y)` is true iff `x` lies in the closed interval
`[left_edge, left_edge + button_width]` and `y` lies in the *open*
interval `(0.09 * thickness, 0.91 * thickness)`; with `W = 2008`,
`thickness = 64`, `N = 12`: `hit(12,0,50,32)` is true and
`hit(12,0,50,0)` is false. -/
theorem c5_hit_characterization (num idx : ℕ) (x y : ℚ)
    (hnum : 1 ≤ num) (hidx : idx < num) :
    (button_hit num idx x y = true ↔
      (leftEdge num idx ≤ x ∧ x ≤ leftEdge num idx + buttonWidth num ∧
       9 / 100 * DFR_HEIGHT < y ∧ y < 91 / 100 * DFR_HEIGHT)) ∧
    button_hit 12 0 50 32 = true ∧ button_hit 12 0 50 0 = false := by
  refine ⟨button_hit_iff num idx x y, ?_, ?_⟩ <;>
    norm_num [button_hit, leftEdge, buttonWidth, spacingWidth, DFR_WIDTH, DFR_HEIGHT]

/-- C5 witness: the amended characterization instantiated at
`N = 12`, `i = 0`, `x = 50`, `y = 32`. -/
theorem c5_hit_characterization_witness :
    (button_hit 12 0 50 32 = true ↔
      (leftEdge 12 0 ≤ 50 ∧ (50 : ℚ) ≤ leftEdge 12 0 + buttonWidth 12 ∧
       9 / 100 * DFR_HEIGHT < 32 ∧ (32 : ℚ) < 91 / 100 * DFR_HEIGHT)) ∧
    button_hit 12 0 50 32 = true ∧ button_hit 12 0 50 0 = false :=
  c5_hit_characterization 12 0 50 32 (by norm_num) (by norm_num)

/-- C7: for every `N ≥ 1` and distinct `i ≠ j` below `N`, no point
`(x, y)` is inside both hit regions: the regions of distinct buttons are
disjoint (consecutive buttons are separated by a positive spacing gap). -/
theorem c7_hit_regions_disjoint (num i j : ℕ) (x y : ℚ)
    (hnum : 1 ≤ num) (hij : i ≠ j) (hi : i < num) (hj : j < num) :
    ¬(button_hit num i x y = true ∧ button_hit num j x y = true) := by
  rintro ⟨ha, hb⟩
  obtain ⟨ha1, ha2, -, -⟩ := (button_hit_iff num i x y).mp ha
  obtain ⟨hb1, hb2, -, -⟩ := (button_hit_iff num j x y).mp hb
  rcases lt_or_gt_of_ne hij with h | h
  · have := leftEdge_gap num i j h
    linarith
  · have := leftEdge_gap num j i h
    linarith

/-- C7 witness: buttons 0 and 1 of the twelve-button layout do not both
contain the point `(50, 32)`. -/
theorem c7_hit_regions_disjoint_witness :
    ¬(button_hit 12 0 50 32 = true ∧ button_hit 12 1 50 32 = true) :=
  c7_hit_regions_disjoint 12 0 1 50 32 (by norm_num) (by norm_num)
    (by norm_num) (by norm_num)

/-- C8: for every `N ≥ 1` and `0 ≤ i < N`, `hit` is true at the center of
button `i`'s drawn rectangle, and false at every point whose `x` lies
outside `[0, W]` or whose `y` lies outside the vertical band tested by
the source (`0.09 * thickness < y < 0.91 * thickness`). -/
theorem c8_center_hit_outside_miss (num idx : ℕ) (x y : ℚ)
    (hnum : 1 ≤ num) (hidx : idx < num) :
    button_hit num idx
      ((drawnButtonRect num idx).x + (drawnButtonRect num idx).w / 2)
      ((drawnButtonRect num idx).y + (drawnButtonRect num idx).h / 2) = true ∧
    (x < 0 ∨ DFR_WIDTH < x → button_hit num idx x y = false) ∧
    (¬(9 / 100 * DFR_HEIGHT < y ∧ y < 91 / 100 * DFR_HEIGHT) →
      button_hit num idx x y = false) := by
  have hbw := buttonWidth_pos num
  have hsp := spacingWidth_pos num
  have hle := leftEdge_pos num idx
  refine ⟨?_, ?_, ?_⟩
  · rw [button_hit_iff]
    rw [drawnButtonRect]
    refine ⟨by linarith, by linarith, ?_, ?_⟩ <;> norm_num [DFR_HEIGHT]
  · intro hx
    rw [Bool.eq_false_iff]
    intro hhit
    obtain ⟨h1, h2, -, -⟩ := (button_hit_iff num idx x y).mp hhit
    have hright := rightEdge_lt_width num idx hidx
    rcases hx with hx | hx
    · linarith
    · linarith
  · intro hy
    rw [Bool.eq_false_iff]
    intro hhit
    obtain ⟨-, -, h3, h4⟩ := (button_hit_iff num idx x y).mp hhit
    exact hy ⟨h3, h4⟩

/-- C8 witness: instantiated at `N = 12`, `i = 0` and the outside point
`(-1, -1)`. -/
theorem c8_center_hit_outside_miss_witness :
    button_hit 12 0
      ((drawnButtonRect 12 0).x + (drawnButtonRect 12 0).w / 2)
      ((drawnButtonRect 12 0).y + (drawnButtonRect 12 0).h / 2) = true ∧
    ((-1 : ℚ) < 0 ∨ DFR_WIDTH < -1 → button_hit 12 0 (-1) (-1) = false) ∧
    (¬(9 / 100 * DFR_HEIGHT < (-1 : ℚ) ∧ (-1 : ℚ) < 91 / 100 * DFR_HEIGHT) →
      button_hit 12 0 (-1) (-1) = false) :=
  c8_center_hit_outside_miss 12 0 (-1) (-1) (by norm_num) (by norm_num)

/-- C9 (counterexample): the claim asserts the set of `y` accepted by
`hit` is strictly larger than the drawn rectangle's vertical extent.  In
fact the bottom edge `y = 0.09 * thickness` of the drawn rectangle (which
lies inside the extent) is rejected by `button_hit` even at an `x` inside
button 0, so the hit band does not even contain the drawn extent. -/
theorem c9_counterexample :
    (drawnButtonRect 12 0).y ≤ (drawnButtonRect 12 0).y + (drawnButtonRect 12 0).h ∧
    leftEdge 12 0 ≤ 50 ∧ (50 : ℚ) ≤ leftEdge 12 0 + buttonWidth 12 ∧
    button_hit 12 0 50 ((drawnButtonRect 12 0).y) = false := by
  norm_num [drawnButtonRect, button_hit, leftEdge, buttonWidth, spacingWidth,
    DFR_WIDTH, DFR_HEIGHT]

/-- C9 (amended): for every `N ≥ 1` and `0 ≤ i < N`, every `y` accepted by
`hit(N,i,x,y)` lies within the vertical extent
`[0.09 * thickness, 0.09 * thickness + 0.82 * thickness]` of button `i`'s
drawn rectangle, and the extent's bottom edge itself is rejected: the set
of accepted `y` is contained in the drawn extent and misses at least its
bottom edge, so the hit test's vertical tolerance is *not* larger than
the drawn rectangle. -/
theorem c9_hit_band_within_drawn (num idx : ℕ) (x y : ℚ)
    (hnum : 1 ≤ num) (hidx : idx < num)
    (hhit : button_hit num idx x y = true) :
    ((drawnButtonRect num idx).y ≤ y ∧
     y ≤ (drawnButtonRect num idx).y + (drawnButtonRect num idx).h) ∧
    button_hit num idx x ((drawnButtonRect num idx).y) = false := by
  obtain ⟨-, -, h3, h4⟩ := (button_hit_iff num idx x y).mp hhit
  rw [DFR_HEIGHT] at h3 h4
  norm_num at h3 h4
  refine ⟨⟨?_, ?_⟩, ?_⟩
  · rw [drawnButtonRect, DFR_HEIGHT]
    norm_num
    linarith
  · rw [drawnButtonRect, DFR_HEIGHT]
    norm_num
    linarith
  · rw [Bool.eq_false_iff]
    intro hc
    obtain ⟨-, -, hy1, -⟩ := (button_hit_iff num idx x _).mp hc
    rw [drawnButtonRect] at hy1
    exact lt_irrefl _ hy1

/-- C9 witness: instantiated at `N = 12`, `i = 0`, the point `(50, 32)`. -/
theorem c9_hit_band_within_drawn_witness :
    ((drawnButtonRect 12 0).y ≤ 32 ∧
     (32 : ℚ) ≤ (drawnButtonRect 12 0).y + (drawnButtonRect 12 0).h) ∧
    button_hit 12 0 50 ((drawnButtonRect 12 0).y) = false :=
  c9_hit_band_within_drawn 12 0 50 32 (by norm_num) (by norm_num)
    (by norm_num [button_hit, leftEdge, buttonWidth, spacingWidth,
      DFR_WIDTH, DFR_HEIGHT])

/-! ### Claims about display-mode discovery -/

/-- C6 (counterexample): the claim asserts mode size `(2008, 64)` passes
the touch-strip heuristic.  `mode.size()` is `(width, height)` and the
source tests `disp_height / disp_width < 30`, so `(2008, 64)` gives
`64 / 2008 = 0 < 30` and discovery fails with the NotATouchStrip error. -/
theorem c6_counterexample :
    touchbarModeCheck 2008 64 = Except.error "This does not look like a touchbar" := rfl

/-- C6 (amended): discovery accepts a mode exactly when height/width ≥ 30
(the integer-division guard is equivalent to the exact rational ratio
meeting the threshold); the portrait strip mode `(64, 2008)` passes, while
`(2008, 64)` and `(1920, 1080)` fail with the NotATouchStrip error. -/
theorem c6_mode_threshold (w h : ℕ) (hw : 0 < w) :
    (touchbarModeCheck w h = Except.ok () ↔ 30 ≤ (h : ℚ) / (w : ℚ)) ∧
    touchbarModeCheck 64 2008 = Except.ok () ∧
    touchbarModeCheck 2008 64 = Except.error "This does not look like a touchbar" ∧
    touchbarModeCheck 1920 1080 = Except.error "This does not look like a touchbar" := by
  have hwq : (0 : ℚ) < (w : ℚ) := by exact_mod_cast hw
  have key : (¬ h / w < 30) ↔ (30 : ℚ) ≤ (h : ℚ) / (w : ℚ) := by
    rw [not_lt, le_div_iff₀ hwq]
    rw [Nat.le_div_iff_mul_le hw]
    exact_mod_cast Iff.rfl
  refine ⟨?_, rfl, rfl, rfl⟩
  rw [touchbarModeCheck]
  split_ifs with hc
  · constructor
    · intro habs
      exact absurd habs (by simp)
    · intro hge
      exact absurd hc (key.mpr hge)
  · exact ⟨fun _ => key.mp hc, fun _ => rfl⟩

/-- C6 witness: the threshold equivalence instantiated at the portrait
strip mode `(64, 2008)`. -/
theorem c6_mode_threshold_witness :
    (touchbarModeCheck 64 2008 = Except.ok () ↔ 30 ≤ (2008 : ℚ) / (64 : ℚ)) ∧
    touchbarModeCheck 64 2008 = Except.ok () ∧
    touchbarModeCheck 2008 64 = Except.error "This does not look like a touchbar" ∧
    touchbarModeCheck 1920 1080 = Except.error "This does not look like a touchbar" := by
  have := c6_mode_threshold 64 2008 (by norm_num)
  exact_mod_cast this

/-- At the exact right end of the strip the bucket index of line 350
evaluates to 12, one past the last button. -/
lemma candidate_2008 : candidate 2008 = 12 := by
  have h : ⌊(2008 : ℚ) / (DFR_WIDTH / 12)⌋ = 12 := by norm_num [DFR_WIDTH]
  rw [candidate, h]
  decide

/-- The phantom thirteenth region: index 12 passes the hit test at the
strip's right edge. -/
lemma hit_idx12_at_right_edge : button_hit 12 12 2008 32 = true := by
  norm_num [button_hit, leftEdge, buttonWidth, spacingWidth, DFR_WIDTH, DFR_HEIGHT]

/-- Preservation of the press invariant under one harmless interleaved
event. -/
lemma pressInv_step (slot k : ℕ) (s : AppState) (e : TouchEv)
    (he : otherSlotOtherButton slot k e)
    (h : PressInv slot k s) : PressInv slot k (stepEvent s e).1 := by
  obtain ⟨h1, h2, h3⟩ := h
  obtain ⟨hslot, hdown⟩ := he
  unfold PressInv
  cases e with
  | down s2 x y =>
      rw [eventSlot] at hslot
      have hbtn : candidate x ≠ k := hdown s2 x y rfl
      by_cases hh : button_hit 12 (candidate x) x y
      · rw [stepEvent_down_hit s s2 x y hh]
        refine ⟨?_, ?_, ?_⟩
        · dsimp only
          rw [if_neg (fun hc : slot = s2 => hslot hc.symm)]
          exact h1
        · dsimp only
          rw [getD_set_other _ _ _ _ hbtn]
          exact h2
        · intro t ht
          dsimp only
          by_cases hts : t = s2
          · rw [if_pos hts]
            intro hc
            exact hbtn (Option.some_injective _ hc)
          · rw [if_neg hts]
            exact h3 t ht
      · rw [stepEvent_down_miss s s2 x y (by simpa using hh)]
        exact ⟨h1, h2, h3⟩
  | motion s2 x y =>
      rw [eventSlot] at hslot
      cases htr : s.touches s2 with
      | none =>
          rw [stepEvent_motion_untracked s s2 x y htr]
          exact ⟨h1, h2, h3⟩
      | some btn =>
          have hbtn : btn ≠ k := by
            intro hbk
            exact h3 s2 hslot (hbk ▸ htr)
          rw [stepEvent_motion_tracked s s2 btn x y htr]
          by_cases hcond : s.button_state.getD btn false ≠ button_hit 12 btn x y
          · rw [if_pos hcond]
            refine ⟨h1, ?_, h3⟩
            dsimp only
            rw [getD_set_other _ _ _ _ hbtn]
            exact h2
          · rw [if_neg hcond]
            exact ⟨h1, h2, h3⟩
  | up s2 =>
      rw [eventSlot] at hslot
      cases htr : s.touches s2 with
      | none =>
          rw [stepEvent_up_untracked s s2 htr]
          exact ⟨h1, h2, h3⟩
      | some btn =>
          have hbtn : btn ≠ k := by
            intro hbk
            exact h3 s2 hslot (hbk ▸ htr)
          rw [stepEvent_up_tracked s s2 btn htr]
          by_cases hcond : s.button_state.getD btn false = true
          · rw [if_pos hcond]
            refine ⟨h1, ?_, h3⟩
            dsimp only
            rw [getD_set_other _ _ _ _ hbtn]
            exact h2
          · rw [if_neg hcond]
            exact ⟨h1, h2, h3⟩

/-- Preservation of the press invariant under a batch of harmless
interleaved events. -/
lemma pressInv_processAll (slot k : ℕ) (l : List TouchEv) :
    ∀ s : AppState, (∀ e ∈ l, otherSlotOtherButton slot k e) →
      PressInv slot k s → PressInv slot k (processAll l s).1 := by
  induction l with
  | nil =>
      intro s _ h
      exact h
  | cons e rest ih =>
      intro s hl h
      exact ih _ (fun e2 he2 => hl e2 (List.mem_cons_of_mem _ he2))
        (pressInv_step slot k s e (hl e (List.mem_cons_self e rest)) h)

/-! ### Claims about the touch state machine -/

/-- C1: evaluation of the Up handler at a tracked slot.  When the button
is active, key-up plus sync are emitted, the active bit is cleared and the
redraw flag set; when it is inactive nothing is emitted — but in *both*
cases the slot stays bound in the touch map: src/main.rs lines 375-386
never call `touches.remove`, so the claimed transition to Untracked does
not happen. -/
theorem c1_up_keeps_slot_tracked :
    (stepEvent trackedActiveState (.up 0)).2 = [keyEv 0 0, synEv] ∧
    (stepEvent trackedActiveState (.up 0)).1.button_state.getD 0 false = false ∧
    (stepEvent trackedActiveState (.up 0)).1.needs_redraw = true ∧
    (stepEvent trackedActiveState (.up 0)).1.touches 0 = some 0 ∧
    (stepEvent trackedInactiveState (.up 0)).2 = [] ∧
    (stepEvent trackedInactiveState (.up 0)).1.touches 0 = some 0 := by
  refine ⟨rfl, rfl, rfl, rfl, rfl, rfl⟩

/-- C10: at the in-range touch coordinate `x = 2008 = W` (the right end of
the strip, reachable from `x_transformed(DFR_WIDTH)`), the candidate index
is 12 and `button_hit(12, 12, 2008, 32)` *passes*, yet 12 is not below the
length of the button list: the subsequent `button_state[12]` /
`layer.buttons[12]` accesses in lines 352-355 are out of bounds (a panic
in Rust), so the claimed in-bounds guarantee fails at the boundary. -/
theorem c10_boundary_index_overflow :
    (0 : ℚ) ≤ 2008 ∧ (2008 : ℚ) ≤ DFR_WIDTH ∧
    candidate 2008 = 12 ∧
    button_hit 12 12 2008 32 = true ∧
    layerActions.length = 12 ∧
    ¬(candidate 2008 < layerActions.length) := by
  refine ⟨by norm_num, by norm_num [DFR_WIDTH], candidate_2008,
    hit_idx12_at_right_edge, rfl, ?_⟩
  rw [candidate_2008]
  decide

/-- C4: Motion on a slot tracking `idx` (for a state with the loop's
twelve-entry button vector) never rebinds the slot; it emits exactly one
key event with value the new hit boolean plus a sync report and updates
`button_state[idx]` when the recomputed hit differs from the stored state,
and does nothing at all when it agrees — hence a second Motion at the same
coordinates emits nothing. -/
theorem c4_motion_debounce (s : AppState) (slot idx : ℕ) (x y : ℚ)
    (htr : s.touches slot = some idx) (hidx : idx < 12)
    (hlen : s.button_state.length = 12) :
    ((stepEvent s (.motion slot x y)).1.touches = s.touches) ∧
    (s.button_state.getD idx false ≠ button_hit 12 idx x y →
      (stepEvent s (.motion slot x y)).2 =
        [keyEv idx (if button_hit 12 idx x y then 1 else 0), synEv] ∧
      (stepEvent s (.motion slot x y)).1.button_state.getD idx false =
        button_hit 12 idx x y ∧
      (stepEvent s (.motion slot x y)).1.needs_redraw = true) ∧
    (s.button_state.getD idx false = button_hit 12 idx x y →
      stepEvent s (.motion slot x y) = (s, [])) ∧
    (stepEvent (stepEvent s (.motion slot x y)).1 (.motion slot x y)).2 = [] := by
  have hset : (s.button_state.set idx (button_hit 12 idx x y)).getD idx false =
      button_hit 12 idx x y :=
    getD_set_self _ _ _ (by rw [hlen]; exact hidx)
  rw [stepEvent_motion_tracked s slot idx x y htr]
  by_cases hc : s.button_state.getD idx false = button_hit 12 idx x y
  · rw [if_neg (fun hne => hne hc)]
    refine ⟨rfl, fun hne => absurd hc hne, fun _ => rfl, ?_⟩
    rw [stepEvent_motion_tracked s slot idx x y htr, if_neg (fun hne => hne hc)]
  · rw [if_pos hc]
    refine ⟨rfl, fun _ => ⟨rfl, hset, rfl⟩, fun heq => absurd heq hc, ?_⟩
    have htr2 : (⟨s.touches, s.button_state.set idx (button_hit 12 idx x y),
        true⟩ : AppState).touches slot = some idx := htr
    rw [stepEvent_motion_tracked _ slot idx x y htr2]
    rw [if_neg (fun hne => hne hset)]

/-- C4 witness: a slot tracking button 0 with the button inactive; a
Motion at `(50, 32)` (inside button 0) re-presses, and the conclusions are
evaluated at that concrete state. -/
theorem c4_motion_debounce_witness :
    ((stepEvent trackedInactiveState (.motion 0 50 32)).1.touches =
      trackedInactiveState.touches) ∧
    (trackedInactiveState.button_state.getD 0 false ≠ button_hit 12 0 50 32 →
      (stepEvent trackedInactiveState (.motion 0 50 32)).2 =
        [keyEv 0 (if button_hit 12 0 50 32 then 1 else 0), synEv] ∧
      (stepEvent trackedInactiveState (.motion 0 50 32)).1.button_state.getD 0 false =
        button_hit 12 0 50 32 ∧
      (stepEvent trackedInactiveState (.motion 0 50 32)).1.needs_redraw = true) ∧
    (trackedInactiveState.button_state.getD 0 false = button_hit 12 0 50 32 →
      stepEvent trackedInactiveState (.motion 0 50 32) = (trackedInactiveState, [])) ∧
    (stepEvent (stepEvent trackedInactiveState (.motion 0 50 32)).1
      (.motion 0 50 32)).2 = [] :=
  c4_motion_debounce trackedInactiveState 0 0 50 32 rfl (by norm_num) rfl

/-- C3 (counterexample): at the in-range coordinate `x = 2008 = W`,
`y = 32`, the Down lands outside *every* button's hit region (all twelve
fail), yet the slot does not remain Untracked: the candidate index is the
phantom index 12, `button_hit(12, 12, 2008, 32)` passes, and the handler
binds the slot and emits a key-down (in Rust it panics on
`button_state[12]` right after inserting into the map). -/
theorem c3_counterexample :
    (∀ i, i < 12 → button_hit 12 i 2008 32 = false) ∧
    (stepEvent initState (.down 0 2008 32)).1.touches 0 = some 12 ∧
    (stepEvent initState (.down 0 2008 32)).2 = [keyEv 12 1, synEv] := by
  have hhit : button_hit 12 (candidate 2008) 2008 32 = true := by
    rw [candidate_2008]
    exact hit_idx12_at_right_edge
  refine ⟨?_, ?_, ?_⟩
  · intro i hi
    interval_cases i <;>
      norm_num [button_hit, leftEdge, buttonWidth, spacingWidth, DFR_WIDTH, DFR_HEIGHT]
  · rw [stepEvent_down_hit initState 0 2008 32 hhit]
    simp [candidate_2008]
  · rw [stepEvent_down_hit initState 0 2008 32 hhit]
    rw [candidate_2008]

/-- C3 (amended): for a slot that is currently Untracked, a Down landing
strictly left of the strip end (`x < W`) and outside every button's hit
region leaves the state completely unchanged and emits nothing, and so
does every further Motion or Up for that slot — a whole trace of such
events for that slot emits no event and leaves the state (touch map,
ButtonActiveState, redraw flag) untouched. -/
theorem c3_missed_down_inert (s0 : AppState) (slot : ℕ) (l : List TouchEv)
    (h0 : s0.touches slot = none)
    (hl : ∀ e ∈ l, missOnly slot e) :
    processAll l s0 = (s0, []) := by
  induction l with
  | nil => rfl
  | cons e rest ih =>
      have hstep : stepEvent s0 e = (s0, []) := by
        have hme := hl e (List.mem_cons_self e rest)
        cases e with
        | down s2 x y =>
            obtain ⟨hs2, hx, hmiss⟩ := hme
            exact stepEvent_down_miss s0 s2 x y (hmiss _ (candidate_lt x hx))
        | motion s2 x y =>
            have hs2 : s2 = slot := hme
            exact stepEvent_motion_untracked s0 s2 x y (hs2 ▸ h0)
        | up s2 =>
            have hs2 : s2 = slot := hme
            exact stepEvent_up_untracked s0 s2 (hs2 ▸ h0)
      have hrest := ih (fun e2 he2 => hl e2 (List.mem_cons_of_mem _ he2))
      rw [processAll, hstep]
      rw [show ((s0, ([] : List EmittedEvent)).1) = s0 from rfl] at *
      rw [hrest]
      rfl

/-- C3 witness: from the initial state, the trace Down(100, 0) (a miss:
`y = 0` is below the band), Motion(50, 32), Up on slot 0 emits nothing and
leaves the state unchanged. -/
theorem c3_missed_down_inert_witness :
    processAll [TouchEv.down 0 100 0, TouchEv.motion 0 50 32, TouchEv.up 0]
      initState = (initState, []) := by
  refine c3_missed_down_inert initState 0 _ rfl ?_
  intro e he
  fin_cases he
  · refine ⟨rfl, by norm_num [DFR_WIDTH], ?_⟩
    intro i hi
    interval_cases i <;>
      norm_num [button_hit, leftEdge, buttonWidth, spacingWidth, DFR_WIDTH, DFR_HEIGHT]
  · exact rfl
  · exact rfl

/-- C2: a Down strictly inside button `k`'s hit region computes candidate
index `k`, confirms it with `button_hit`, emits exactly
key-down(action[k]) plus a sync report and binds the slot to `k`; after
any interleaved batch of events of other slots acting on other buttons, an
Up on the same slot emits exactly key-up(action[k]) plus a sync report. -/
theorem c2_round_trip (s0 : AppState) (slot k : ℕ) (x y : ℚ) (l : List TouchEv)
    (hk : k < 12) (hlen : s0.button_state.length = 12)
    (hx1 : leftEdge 12 k < x) (hx2 : x < leftEdge 12 k + buttonWidth 12)
    (hy1 : 9 / 100 * DFR_HEIGHT < y) (hy2 : y < 91 / 100 * DFR_HEIGHT)
    (hl : ∀ e ∈ l, otherSlotOtherButton slot k e)
    (hshare : ∀ t, t ≠ slot → s0.touches t ≠ some k) :
    candidate x = k ∧
    button_hit 12 k x y = true ∧
    (stepEvent s0 (.down slot x y)).2 = [keyEv k 1, synEv] ∧
    (stepEvent s0 (.down slot x y)).1.touches slot = some k ∧
    (stepEvent
      (processAll l (stepEvent s0 (.down slot x y)).1).1 (.up slot)).2 =
      [keyEv k 0, synEv] := by
  have hcand : candidate x = k := candidate_eq k x hk (le_of_lt hx1) (le_of_lt hx2)
  have hhitk : button_hit 12 k x y = true :=
    (button_hit_iff 12 k x y).mpr ⟨le_of_lt hx1, le_of_lt hx2, hy1, hy2⟩
  have hhit : button_hit 12 (candidate x) x y = true := by rw [hcand]; exact hhitk
  have hdown := stepEvent_down_hit s0 slot x y hhit
  have hinv1 : PressInv slot k (stepEvent s0 (.down slot x y)).1 := by
    rw [hdown]
    refine ⟨?_, ?_, ?_⟩
    · dsimp only
      rw [if_pos rfl, hcand]
    · dsimp only
      rw [hcand]
      exact getD_set_self _ _ _ (by rw [hlen]; exact hk)
    · intro t ht
      dsimp only
      rw [if_neg ht]
      exact hshare t ht
  have hinv2 : PressInv slot k (processAll l (stepEvent s0 (.down slot x y)).1).1 :=
    pressInv_processAll slot k l _ hl hinv1
  obtain ⟨hin1, hin2, -⟩ := hinv2
  refine ⟨hcand, hhitk, ?_, ?_, ?_⟩
  · rw [hdown, hcand]
  · rw [hdown]
    dsimp only
    rw [if_pos rfl, hcand]
  · rw [stepEvent_up_tracked _ slot k hin1, if_pos hin2]

/-- C2 witness: from the initial state, slot 0 presses `(50, 32)` inside
button 0 with no interleaved events; the Down emits key-down(F1) and the
Up emits key-up(F1). -/
theorem c2_round_trip_witness :
    candidate 50 = 0 ∧
    button_hit 12 0 50 32 = true ∧
    (stepEvent initState (.down 0 50 32)).2 = [keyEv 0 1, synEv] ∧
    (stepEvent initState (.down 0 50 32)).1.touches 0 = some 0 ∧
    (stepEvent
      (processAll [] (stepEvent initState (.down 0 50 32)).1).1 (.up 0)).2 =
      [keyEv 0 0, synEv] := by
  refine c2_round_trip initState 0 0 50 32 [] (by norm_num) rfl ?_ ?_ ?_ ?_
    (by intro e he; exact absurd he (List.not_mem_nil e)) ?_
  · norm_num [leftEdge, buttonWidth, spacingWidth, DFR_WIDTH]
  · norm_num [leftEdge, buttonWidth, spacingWidth, DFR_WIDTH]
  · norm_num [DFR_HEIGHT]
  · norm_num [DFR_HEIGHT]
  · intro t ht
    exact fun hc => Option.noConfusion hc
